import Mathlib

/-!
RSA verification benchmark (`main/mbedtls_rsa.c`)

A shallow embedding of `app_main` and of the cycle-counter helpers of
`main/mbedtls_rsa.c`.

`app_main` is straight-line code with one `for` loop and one cleanup label.
It talks to three collaborators: the mbedTLS library, the cycle counter CSR
and the console.  The embedding makes these explicit:

* a `World` answers every question the program asks its collaborators (the
  status code of each status-checked library call, the value of each counter
  read, the text `mbedtls_strerror` writes);
* the program is a function from a `World` to the list of `Event`s it
  performs, oldest first.  A label of the C code is a function producing the
  events from that label on, so `goto exit` is a call of `exit`.

C `int` status codes are `Int`; `uint32_t` counter samples are `Nat` reduced
modulo `2 ^ 32`.
-/

namespace MbedtlsRsa

/-! ## Constants -/

/-- `#define HASH_LEN 32` -/
def HASH_LEN : Nat := 32

/-- `#define MAX_KEY_SIZE 4096` -/
def MAX_KEY_SIZE : Nat := 4096

/-- `#define MAX_SIG_LEN (MAX_KEY_SIZE / 8)` -/
def MAX_SIG_LEN : Nat := MAX_KEY_SIZE / 8

/-- `const char *pers = "rsa_time_comparison";` -/
def pers : String := "rsa_time_comparison"

/-- `const char *message = "OPEN MESSAGE FOR ENCRYPTION";` -/
def message : String := "OPEN MESSAGE FOR ENCRYPTION"

/-- `const int key_sizes[] = {2048, 3072};` -/
def key_sizes : List Nat := [2048, 3072]

/-- `const int num_key_sizes = sizeof(key_sizes) / sizeof(key_sizes[0]);` -/
def num_key_sizes : Nat := key_sizes.length

/-- Number of values of a `uint32_t`. -/
def UINT32 : Nat := 4294967296

/-! ## Collaborators -/

/-- The six status-checked library calls of one loop iteration, in program
order (lines 98, 106, 120, 134, 151, 172). -/
inductive Step
  | pk_setup
  | gen_key
  | sign_pkcs1
  | sign_pss
  | verify_pkcs1
  | verify_pss
  deriving DecidableEq, Repr

/-- A library call whose returned status `app_main` stores in `ret` and tests:
the seeding of the generator (line 76), the hash (line 84) and, for the loop
index `i`, each `Step`. -/
inductive Call
  | seed
  | hash
  | step (i : Nat) (s : Step)
  deriving DecidableEq, Repr

/-- Everything the collaborators decide.  `status c` is the status code the
library returns from call `c`; `cycles n` is the value of CSR `0x7E2` at its
`n`-th read (counting from 0); `rsa_len i s` is what `mbedtls_rsa_get_len`
returns after signing step `s` of iteration `i`; `strerror r` is the text
`mbedtls_strerror` writes for status `r`. -/
structure World where
  status : Call → Int
  cycles : Nat → Nat
  rsa_len : Nat → Step → Nat
  strerror : Int → String

/-! ## Events -/

/-- The RSA contexts `app_main` operates on: its own variable `rsa`, and
`rsa_pk = mbedtls_pk_rsa(pk)`, the RSA context embedded in `pk`. -/
inductive RsaRef
  | rsa
  | rsa_pk
  deriving DecidableEq, Repr

/-- Padding schemes passed to `mbedtls_rsa_set_padding`. -/
inductive Padding
  | MBEDTLS_RSA_PKCS_V15
  | MBEDTLS_RSA_PKCS_V21
  deriving DecidableEq, Repr

/-- Message digest identifiers. -/
inductive MdType
  | MBEDTLS_MD_SHA256
  deriving DecidableEq, Repr

/-- Public-key algorithm identifiers. -/
inductive PkType
  | MBEDTLS_PK_RSA
  deriving DecidableEq, Repr

/-- The byte buffers of `app_main` handed to the library. -/
inductive Buf
  | hash
  | signature_pkcs1
  | signature_pss
  deriving DecidableEq, Repr

/-- One constructor per `printf` call of the file, carrying the values of its
variadic arguments (`%d` key size, `%04x` negated status as `unsigned`, `%lu`
normalised cycle count, `%s` error text).  `Line.format` gives the format
string. -/
inductive Line
  | starting
  | seed_failed (x : Nat)
  | hash_failed (x : Nat)
  | blank
  | testing (key_size : Nat)
  | pk_setup_failed (x : Nat)
  | gen_key_failed (key_size : Nat) (x : Nat)
  | signing_pkcs1
  | sign_pkcs1_failed (x : Nat)
  | signing_pss
  | sign_pss_failed (x : Nat)
  | measuring_pkcs1 (key_size : Nat)
  | verify_pkcs1_failed (x : Nat)
  | cycles_pkcs1 (key_size : Nat) (lu : Nat)
  | measuring_pss (key_size : Nat)
  | verify_pss_failed (x : Nat)
  | cycles_pss (key_size : Nat) (lu : Nat)
  | completed
  | error (s : String) (x : Nat)
  deriving DecidableEq, Repr

/-- The format string of each `printf` call. -/
def Line.format : Line → String
  | .starting => "\nStarting RSA Time Comparison\n"
  | .seed_failed _ => "Failed to seed RNG: -0x%04x\n"
  | .hash_failed _ => "Failed to compute SHA-256 hash: -0x%04x\n"
  | .blank => "\n"
  | .testing _ => "\n=== Testing RSA-%d ===\n"
  | .pk_setup_failed _ => "Failed to set up PK context: -0x%04x\n"
  | .gen_key_failed _ _ => "Failed to generate RSA-%d key: -0x%04x\n"
  | .signing_pkcs1 => "Signing message (PKCS#1 v1.5)...\n"
  | .sign_pkcs1_failed _ => "Failed to sign message (PKCS#1 v1.5): -0x%04x\n"
  | .signing_pss => "Signing message (PSS)...\n"
  | .sign_pss_failed _ => "Failed to sign message (PSS): -0x%04x\n"
  | .measuring_pkcs1 _ => "\nMeasuring RSA-%d PKCS#1 v1.5 Verify (mbedtls_rsa_pkcs1_verify)...\n"
  | .verify_pkcs1_failed _ => "Signature verification failed (PKCS#1 v1.5): -0x%04x\n"
  | .cycles_pkcs1 _ _ => "RSA-%d PKCS#1 v1.5 Verify (mbedtls_rsa_pkcs1_verify): %lu cycles\n"
  | .measuring_pss _ => "\nMeasuring RSA-%d PSS Verify (mbedtls_rsa_rsassa_pss_verify)...\n"
  | .verify_pss_failed _ => "Signature verification failed (PSS): -0x%04x\n"
  | .cycles_pss _ _ => "RSA-%d PSS Verify (mbedtls_rsa_rsassa_pss_verify): %lu cycles\n"
  | .completed => "\nTime Comparison Completed Successfully!\n"
  | .error _ _ => "Error: %s (-0x%04x)\n"

/-- What `app_main` does to its collaborators: one constructor per called
function, with the arguments that are not fixed by the call site's context
variable.  Pure look-ups (`mbedtls_md_info_from_type`,
`mbedtls_pk_info_from_type`, `mbedtls_pk_rsa`, `strlen`) appear through their
results.  `start v` and `end_ v` are the two counter helpers returning `v`.
The statuses returned by `mbedtls_rsa_copy` and `mbedtls_rsa_set_padding` are
discarded by the program (lines 114, 117, 131, 144, 165). -/
inductive Event
  | esp_task_wdt_deinit
  | printf (l : Line)
  | mbedtls_pk_init
  | mbedtls_rsa_init (ctx : RsaRef)
  | mbedtls_entropy_init
  | mbedtls_ctr_drbg_init
  | mbedtls_ctr_drbg_seed (custom : String) (len : Nat)
  | mbedtls_md (md : MdType) (input : String) (ilen : Nat) (output : Buf)
  | mbedtls_pk_setup (info : PkType)
  | mbedtls_rsa_gen_key (ctx : RsaRef) (nbits : Nat) (exponent : Nat)
  | mbedtls_rsa_copy (dst src : RsaRef)
  | mbedtls_rsa_set_padding (ctx : RsaRef) (padding : Padding) (hash_id : MdType)
  | mbedtls_rsa_pkcs1_sign (ctx : RsaRef) (md_alg : MdType) (hashlen : Nat)
      (hashbuf sig : Buf)
  | mbedtls_rsa_rsassa_pss_sign (ctx : RsaRef) (md_alg : MdType) (hashlen : Nat)
      (hashbuf sig : Buf)
  | mbedtls_rsa_get_len (ctx : RsaRef)
  | start (value : Nat)
  | mbedtls_rsa_pkcs1_verify (ctx : RsaRef) (md_alg : MdType) (hashlen : Nat)
      (hashbuf sig : Buf)
  | mbedtls_rsa_rsassa_pss_verify (ctx : RsaRef) (md_alg : MdType) (hashlen : Nat)
      (hashbuf sig : Buf)
  | end_ (value : Nat)
  | mbedtls_rsa_free (ctx : RsaRef)
  | mbedtls_pk_free
  | mbedtls_ctr_drbg_free
  | mbedtls_entropy_free
  | mbedtls_strerror (errnum : Int) (buflen : Nat)
  deriving DecidableEq, Repr

/-! ## The program -/

/-- `static inline uint32_t start()`: arms the counter (writes 1 to CSRs
`0x7E0` and `0x7E1`) and reads CSR `0x7E2`; `n` counts the earlier reads. -/
def start (w : World) (n : Nat) : Nat := w.cycles n % UINT32

/-- `static inline uint32_t end()`: reads CSR `0x7E2`; `n` counts the earlier
reads. -/
def end_ (w : World) (n : Nat) : Nat := w.cycles n % UINT32

/-- `static void print_hex(label, buf, len)`: the body is `printf("\n")`. -/
def print_hex (_label : String) (_buf : Buf) (_len : Nat) : List Event :=
  [.printf .blank]

/-- The argument `-ret` of a `-0x%04x` conversion: the `int` negation read as
`unsigned int`. -/
def neg_hex (ret : Int) : Nat := ((-ret) % (UINT32 : Int)).toNat

/-- The argument `(en - st) / 160` of the `%lu` conversions (lines 162, 182):
`uint32_t` subtraction, then unsigned division. -/
def cycles_arg (st en : Nat) : Nat := ((en + UINT32 - st) % UINT32) / 160

/-- Label `exit:` (lines 191-203), entered with the current value of `ret`. -/
def exit (w : World) (ret : Int) : List Event :=
  .mbedtls_rsa_free .rsa ::
  .mbedtls_pk_free ::
  .mbedtls_ctr_drbg_free ::
  .mbedtls_entropy_free ::
  (if ret ≠ 0 then
    [.mbedtls_strerror ret 100, .printf (.error (w.strerror ret) (neg_hex ret))]
  else [])

/-- The `for` loop of lines 93-187 followed by lines 189-203.  `i` is the loop
index, `n` the number of counter reads so far, `ret` the current value of the
variable `ret`, and the list holds `key_sizes[i..]`. -/
def loop (w : World) : Nat → Nat → Int → List Nat → List Event
  | _, _, ret, [] =>
    .printf .completed :: exit w ret
  | i, n, _, key_size :: rest =>
    .printf (.testing key_size) ::
    .mbedtls_pk_setup .MBEDTLS_PK_RSA ::
    (let ret := w.status (.step i .pk_setup)
    if ret ≠ 0 then
      .printf (.pk_setup_failed (neg_hex ret)) :: exit w ret
    else
    .mbedtls_rsa_gen_key .rsa_pk key_size 65537 ::
    (let ret := w.status (.step i .gen_key)
    if ret ≠ 0 then
      .printf (.gen_key_failed key_size (neg_hex ret)) :: exit w ret
    else
    .mbedtls_rsa_init .rsa ::
    .mbedtls_rsa_copy .rsa .rsa_pk ::
    .mbedtls_rsa_set_padding .rsa .MBEDTLS_RSA_PKCS_V15 .MBEDTLS_MD_SHA256 ::
    .printf .signing_pkcs1 ::
    .mbedtls_rsa_pkcs1_sign .rsa .MBEDTLS_MD_SHA256 HASH_LEN .hash .signature_pkcs1 ::
    (let ret := w.status (.step i .sign_pkcs1)
    if ret ≠ 0 then
      .printf (.sign_pkcs1_failed (neg_hex ret)) :: exit w ret
    else
    .mbedtls_rsa_get_len .rsa ::
    (let sig_len := w.rsa_len i .sign_pkcs1
    print_hex "PKCS#1 v1.5 Signature" .signature_pkcs1 sig_len ++
    .mbedtls_rsa_set_padding .rsa .MBEDTLS_RSA_PKCS_V21 .MBEDTLS_MD_SHA256 ::
    .printf .signing_pss ::
    .mbedtls_rsa_rsassa_pss_sign .rsa .MBEDTLS_MD_SHA256 HASH_LEN .hash .signature_pss ::
    (let ret := w.status (.step i .sign_pss)
    if ret ≠ 0 then
      .printf (.sign_pss_failed (neg_hex ret)) :: exit w ret
    else
    .mbedtls_rsa_get_len .rsa ::
    (let sig_len := w.rsa_len i .sign_pss
    print_hex "PSS Signature" .signature_pss sig_len ++
    .mbedtls_rsa_set_padding .rsa .MBEDTLS_RSA_PKCS_V15 .MBEDTLS_MD_SHA256 ::
    .printf (.measuring_pkcs1 key_size) ::
    (let st := start w n
    .start st ::
    .mbedtls_rsa_pkcs1_verify .rsa .MBEDTLS_MD_SHA256 HASH_LEN .hash .signature_pkcs1 ::
    (let ret := w.status (.step i .verify_pkcs1)
    if ret ≠ 0 then
      .printf (.verify_pkcs1_failed (neg_hex ret)) :: exit w ret
    else
    (let en := end_ w (n + 1)
    .end_ en ::
    .printf (.cycles_pkcs1 key_size (cycles_arg st en)) ::
    .mbedtls_rsa_set_padding .rsa .MBEDTLS_RSA_PKCS_V21 .MBEDTLS_MD_SHA256 ::
    .printf (.measuring_pss key_size) ::
    (let st := start w (n + 2)
    .start st ::
    .mbedtls_rsa_rsassa_pss_verify .rsa .MBEDTLS_MD_SHA256 HASH_LEN .hash .signature_pss ::
    (let ret := w.status (.step i .verify_pss)
    if ret ≠ 0 then
      .printf (.verify_pss_failed (neg_hex ret)) :: exit w ret
    else
    (let en := end_ w (n + 3)
    .end_ en ::
    .printf (.cycles_pss key_size (cycles_arg st en)) ::
    .mbedtls_rsa_free .rsa ::
    .mbedtls_pk_free ::
    loop w (i + 1) (n + 4) ret rest))))))))))))

/-- `void app_main(void)` (lines 48-204): the events of one run. -/
def app_main (w : World) : List Event :=
  .esp_task_wdt_deinit ::
  .printf .starting ::
  .mbedtls_pk_init ::
  .mbedtls_rsa_init .rsa ::
  .mbedtls_entropy_init ::
  .mbedtls_ctr_drbg_init ::
  .mbedtls_ctr_drbg_seed pers pers.length ::
  (let ret := w.status .seed
  if ret ≠ 0 then
    .printf (.seed_failed (neg_hex ret)) :: exit w ret
  else
  .mbedtls_md .MBEDTLS_MD_SHA256 message message.length .hash ::
  (let ret := w.status .hash
  if ret ≠ 0 then
    .printf (.hash_failed (neg_hex ret)) :: exit w ret
  else
  print_hex "Message hash" .hash HASH_LEN ++
  loop w 0 0 ret key_sizes))

/-! ## Sample worlds -/

/-- The world `w` with every status replaced by 0: all library calls succeed,
the counter reads are those of `w`. -/
def World.all_ok (w : World) : World := { w with status := fun _ => 0 }

/-- A world in which every library call returns 0 and the `n`-th counter read
is `c n`. -/
def quiet (c : Nat → Nat) : World :=
  { status := fun _ => 0, cycles := c, rsa_len := fun _ _ => 0, strerror := fun _ => "" }

/-- A world in which call `k` returns `r` and every other call returns 0. -/
def failing (k : Call) (r : Int) (c : Nat → Nat) : World :=
  { status := fun c' => if c' = k then r else 0, cycles := c,
    rsa_len := fun _ _ => 0, strerror := fun _ => "" }

/-- All calls succeed; the counter advances by 100000 between reads. -/
def w_ok : World := quiet fun n => 100000 * n

/-- All calls succeed; the counter advances by 100 between reads. -/
def w_fast : World := quiet fun n => 100 * n

/-- Setting up the PK context fails with status `-0x3F80` at the second key
size. -/
def w_pk_setup : World := failing (.step 1 .pk_setup) (-16256) fun n => 100000 * n

/-- Key generation fails with status `-0x4180` at the second key size. -/
def w_keygen : World := failing (.step 1 .gen_key) (-16768) fun n => 100000 * n

/-! ## Status-checked calls -/

/-- The status-checked calls of one iteration, in program order. -/
def steps : List Step :=
  [.pk_setup, .gen_key, .sign_pkcs1, .sign_pss, .verify_pkcs1, .verify_pss]

/-- The status-checked calls of a run in which none fails, in program order. -/
def calls : List Call :=
  .seed :: .hash :: (List.range num_key_sizes).flatMap fun i => steps.map (.step i)

/-- The first call of `cs` to which `w` assigns a non-zero status. -/
def first_nonzero (w : World) : List Call → Option Call
  | [] => none
  | c :: cs => if w.status c ≠ 0 then some c else first_nonzero w cs

/-- The first call, in program order, that returns a non-zero status. -/
def first_failure (w : World) : Option Call := first_nonzero w calls

/-- The calls that come before the first failure `k`. -/
def passed : Option Call → List Call
  | none => calls
  | some k => calls.takeWhile fun c => c != k

/-! ## Reading a trace -/

/-- Pairs every element with the state reached before it, the state being
updated by `step` from `s`. -/
def scan {σ α : Type} (step : σ → α → σ) : σ → List α → List (σ × α)
  | _, [] => []
  | s, a :: as => (s, a) :: scan step (step s a) as

/-- Pairs every element with the two elements right before it (`none` where
the list starts). -/
def recent {α : Type} (l : List α) : List ((Option α × Option α) × α) :=
  scan (fun s a => (s.2, some a)) (none, none) l

/-- Pairs every element with the three elements right before it. -/
def recent3 {α : Type} (l : List α) : List ((Option α × Option α × Option α) × α) :=
  scan (fun s a => (s.2.1, s.2.2, some a)) (none, none, none) l

/-- The `Step` an event is a call of. -/
def Event.step? : Event → Option Step
  | .mbedtls_pk_setup _ => some .pk_setup
  | .mbedtls_rsa_gen_key _ _ _ => some .gen_key
  | .mbedtls_rsa_pkcs1_sign _ _ _ _ _ => some .sign_pkcs1
  | .mbedtls_rsa_rsassa_pss_sign _ _ _ _ _ => some .sign_pss
  | .mbedtls_rsa_pkcs1_verify _ _ _ _ _ => some .verify_pkcs1
  | .mbedtls_rsa_rsassa_pss_verify _ _ _ _ _ => some .verify_pss
  | _ => none

/-- The status-checked call an event is, when it occurs in iteration `i`. -/
def Event.call? (i : Nat) : Event → Option Call
  | .mbedtls_ctr_drbg_seed _ _ => some .seed
  | .mbedtls_md _ _ _ _ => some .hash
  | e => e.step?.map (.step i)

/-- The last statement of the loop body (line 186). -/
def Event.ends_iteration : Event → Bool
  | .mbedtls_pk_free => true
  | _ => false

/-- Labels the events of a trace with the status-checked call they are.  The
iteration index is the number of completed iterations, each of which ends with
`mbedtls_pk_free` (line 186). -/
def sites : Nat → List Event → List (Event × Option Call)
  | _, [] => []
  | i, e :: es => (e, e.call? i) :: sites (if e.ends_iteration then i + 1 else i) es

/-- Labels the status-checked calls of a trace with whether they returned 0
in `w`. -/
def outcomes (w : World) (l : List Event) : List (Event × Option Bool) :=
  (sites 0 l).map fun p => (p.1, p.2.map fun c => decide (w.status c = 0))

/-- The events of a labelled trace up to and including call `c`. -/
def through_call (c : Call) : List (Event × Option Call) → List Event
  | [] => []
  | (e, l) :: es => if l = some c then [e] else e :: through_call c es

/-- The diagnostic printed when call `c` returns `ret` (lines 79, 87, 100,
108, 124, 137, 154, 175). -/
def failure_line (c : Call) (ret : Int) : Line :=
  match c with
  | .seed => .seed_failed (neg_hex ret)
  | .hash => .hash_failed (neg_hex ret)
  | .step _ .pk_setup => .pk_setup_failed (neg_hex ret)
  | .step i .gen_key => .gen_key_failed (key_sizes.getD i 0) (neg_hex ret)
  | .step _ .sign_pkcs1 => .sign_pkcs1_failed (neg_hex ret)
  | .step _ .sign_pss => .sign_pss_failed (neg_hex ret)
  | .step _ .verify_pkcs1 => .verify_pkcs1_failed (neg_hex ret)
  | .step _ .verify_pss => .verify_pss_failed (neg_hex ret)

/-- The events from label `exit:` on when entered with a non-zero `ret`. -/
def exit_failed (w : World) (ret : Int) : List Event :=
  [.mbedtls_rsa_free .rsa, .mbedtls_pk_free, .mbedtls_ctr_drbg_free, .mbedtls_entropy_free,
   .mbedtls_strerror ret 100, .printf (.error (w.strerror ret) (neg_hex ret))]

/-- The number of events the all-success run performs up to and including
call `c`: 7 up to the seeding, 8 up to the hash, then 29 per completed
iteration. -/
def cut_index : Call → Nat
  | .seed => 7
  | .hash => 8
  | .step i s =>
    11 + 29 * i +
      match s with
      | .pk_setup => 0
      | .gen_key => 1
      | .sign_pkcs1 => 6
      | .sign_pss => 11
      | .verify_pkcs1 => 17
      | .verify_pss => 23

/-- The run described by its first failure: the all-success run when there is
none, else the all-success run cut right after the failing call, followed by
the diagnostic and the exit block. -/
def run (w : World) : Option Call → List Event
  | none => app_main w.all_ok
  | some c =>
    (app_main w.all_ok).take (cut_index c) ++
      .printf (failure_line c (w.status c)) :: exit_failed w (w.status c)

/-! ## Kinds of events -/

/-- The two verification calls. -/
def Event.is_verify : Event → Bool
  | .mbedtls_rsa_pkcs1_verify _ _ _ _ _ => true
  | .mbedtls_rsa_rsassa_pss_verify _ _ _ _ _ => true
  | _ => false

/-- The two signing calls. -/
def Event.is_sign : Event → Bool
  | .mbedtls_rsa_pkcs1_sign _ _ _ _ _ => true
  | .mbedtls_rsa_rsassa_pss_sign _ _ _ _ _ => true
  | _ => false

/-- A counter sample taken by `start()`. -/
def Event.is_start : Event → Bool
  | .start _ => true
  | _ => false

/-- A counter sample taken by `end()`. -/
def Event.is_end : Event → Bool
  | .end_ _ => true
  | _ => false

/-- The value printed by a timing line (lines 159-162 and 179-182). -/
def Event.timing? : Event → Option Nat
  | .printf (.cycles_pkcs1 _ x) => some x
  | .printf (.cycles_pss _ x) => some x
  | _ => none

/-- The two final reports: the success banner (line 189) and the error line
(line 202). -/
def Event.is_final_report : Event → Bool
  | .printf .completed => true
  | .printf (.error _ _) => true
  | _ => false

/-- The final reports and the status decoding that feeds the error line. -/
def Event.is_verdict : Event → Bool
  | .mbedtls_strerror _ _ => true
  | e => e.is_final_report

/-- The benchmark proper: seeding, hashing, key generation, signing, verifying,
counter samples, timing lines and the final reports. -/
def Event.is_benchmark : Event → Bool
  | .mbedtls_ctr_drbg_seed _ _ => true
  | .mbedtls_md _ _ _ _ => true
  | .mbedtls_rsa_gen_key _ _ _ => true
  | .start _ => true
  | .end_ _ => true
  | e => e.is_sign || e.is_verify || e.timing?.isSome || e.is_final_report

/-! ## Context lifecycle -/

/-- The four cryptographic contexts of `app_main` (lines 54-57). -/
inductive Ctx
  | rsa
  | pk
  | ctr_drbg
  | entropy
  deriving DecidableEq, Repr

/-- The variable of `app_main` an RSA context belongs to: `rsa_pk` lives
inside `pk`. -/
def RsaRef.owner : RsaRef → Ctx
  | .rsa => .rsa
  | .rsa_pk => .pk

/-- Whether an event acquires a context, given whether it returned 0 (`none`
for a call that is not status-checked).  The four `init` calls return nothing
and always acquire; `mbedtls_pk_setup` acquires `pk` only when it returned 0:
a setup that fails (line 98, `goto exit`) acquires nothing. -/
def Event.acquires : Event → Option Bool → Ctx → Bool
  | .mbedtls_rsa_init .rsa, _, .rsa => true
  | .mbedtls_pk_init, _, .pk => true
  | .mbedtls_pk_setup _, some true, .pk => true
  | .mbedtls_ctr_drbg_init, _, .ctr_drbg => true
  | .mbedtls_entropy_init, _, .entropy => true
  | _, _, _ => false

/-- Free events of a context. -/
def Event.releases : Event → Ctx → Bool
  | .mbedtls_rsa_free .rsa, .rsa => true
  | .mbedtls_pk_free, .pk => true
  | .mbedtls_ctr_drbg_free, .ctr_drbg => true
  | .mbedtls_entropy_free, .entropy => true
  | _, _ => false

/-- The contexts an event operates on.  The generator passed to key generation
and signing is `ctr_drbg`, which draws on `entropy`. -/
def Event.contexts : Event → List Ctx
  | .mbedtls_pk_init => [.pk]
  | .mbedtls_rsa_init c => [c.owner]
  | .mbedtls_entropy_init => [.entropy]
  | .mbedtls_ctr_drbg_init => [.ctr_drbg]
  | .mbedtls_ctr_drbg_seed _ _ => [.ctr_drbg, .entropy]
  | .mbedtls_pk_setup _ => [.pk]
  | .mbedtls_rsa_gen_key c _ _ => [c.owner, .ctr_drbg, .entropy]
  | .mbedtls_rsa_copy d s => [d.owner, s.owner]
  | .mbedtls_rsa_set_padding c _ _ => [c.owner]
  | .mbedtls_rsa_pkcs1_sign c _ _ _ _ => [c.owner, .ctr_drbg, .entropy]
  | .mbedtls_rsa_rsassa_pss_sign c _ _ _ _ => [c.owner, .ctr_drbg, .entropy]
  | .mbedtls_rsa_get_len c => [c.owner]
  | .mbedtls_rsa_pkcs1_verify c _ _ _ _ => [c.owner]
  | .mbedtls_rsa_rsassa_pss_verify c _ _ _ _ => [c.owner]
  | .mbedtls_rsa_free c => [c.owner]
  | .mbedtls_pk_free => [.pk]
  | .mbedtls_ctr_drbg_free => [.ctr_drbg]
  | .mbedtls_entropy_free => [.entropy]
  | _ => []

/-- Whether context `x` is acquired and not yet freed after the event `p.1`
with outcome `p.2`, given whether it was before. -/
def held_step (x : Ctx) (held : Bool) (p : Event × Option Bool) : Bool :=
  if p.1.acquires p.2 x then true else if p.1.releases x then false else held

/-- The frees of `x` performed while `x` is not held, in a trace labelled with
the outcomes of its status-checked calls: frees of a context that was never
acquired, or was freed and not acquired again. -/
def repeated_frees (x : Ctx) (o : List (Event × Option Bool)) :
    List (Bool × Event × Option Bool) :=
  (scan (held_step x) false o).filter fun p => p.2.1.releases x && !p.1

/-- Whether `x` is still held when the labelled trace ends. -/
def leaked (x : Ctx) (o : List (Event × Option Bool)) : Bool :=
  o.foldl (held_step x) false

/-- The events of a trace that operate on `x`. -/
def uses (x : Ctx) (l : List Event) : List Event :=
  l.filter fun e => decide (x ∈ e.contexts)

/-- The cleanup block (lines 193-196). -/
def cleanup : List Event :=
  [.mbedtls_rsa_free .rsa, .mbedtls_pk_free, .mbedtls_ctr_drbg_free, .mbedtls_entropy_free]

/-! ## Key material -/

/-- Which key the contexts hold: `size` is the key size of the iteration in
progress (announced by the header of line 95), `pk` and `rsa` the bit length
of the key held by the PK context and by the RSA context. -/
structure Keys where
  size : Option Nat
  pk : Option Nat
  rsa : Option Nat
  deriving DecidableEq, Repr

/-- No iteration started, no key held. -/
def Keys.init : Keys := { size := none, pk := none, rsa := none }

/-- The effect of an event on the keys held: key generation puts a key of
`nbits` bits into the PK context, `mbedtls_rsa_copy` copies it to the RSA
context, init and free empty a context. -/
def Keys.step (s : Keys) : Event → Keys
  | .printf (.testing k) => { s with size := some k }
  | .mbedtls_rsa_gen_key .rsa_pk nbits _ => { s with pk := some nbits }
  | .mbedtls_rsa_copy .rsa .rsa_pk => { s with rsa := s.pk }
  | .mbedtls_rsa_init .rsa => { s with rsa := none }
  | .mbedtls_rsa_free .rsa => { s with rsa := none }
  | .mbedtls_pk_free => { s with pk := none }
  | _ => s

/-- The events that begin the key handling of a key size. -/
def Event.begins_key : Event → Bool
  | .mbedtls_pk_setup _ => true
  | .mbedtls_rsa_gen_key _ _ _ => true
  | _ => false

/-! ## Padding mode -/

/-- The RSA contexts an event operates on; `pk` owns `rsa_pk`. -/
def Event.rsa_operands : Event → List RsaRef
  | .mbedtls_rsa_init c => [c]
  | .mbedtls_pk_setup _ => [.rsa_pk]
  | .mbedtls_rsa_gen_key c _ _ => [c]
  | .mbedtls_rsa_copy d s => [d, s]
  | .mbedtls_rsa_set_padding c _ _ => [c]
  | .mbedtls_rsa_pkcs1_sign c _ _ _ _ => [c]
  | .mbedtls_rsa_rsassa_pss_sign c _ _ _ _ => [c]
  | .mbedtls_rsa_get_len c => [c]
  | .mbedtls_rsa_pkcs1_verify c _ _ _ _ => [c]
  | .mbedtls_rsa_rsassa_pss_verify c _ _ _ _ => [c]
  | .mbedtls_rsa_free c => [c]
  | .mbedtls_pk_free => [.rsa_pk]
  | _ => []

/-- The mode set on context `x` by a `mbedtls_rsa_set_padding` call since
which no other operation on `x` took place. -/
def padding_step (x : RsaRef) (m : Option (Padding × MdType)) (e : Event) :
    Option (Padding × MdType) :=
  match e with
  | .mbedtls_rsa_set_padding c p h => if c = x then some (p, h) else m
  | e => if x ∈ e.rsa_operands then none else m

/-- The context a sign or verify call operates on and the mode it needs:
the padding scheme of the function called and the digest it is given. -/
def Event.scheme? : Event → Option (RsaRef × Padding × MdType)
  | .mbedtls_rsa_pkcs1_sign c h _ _ _ => some (c, .MBEDTLS_RSA_PKCS_V15, h)
  | .mbedtls_rsa_rsassa_pss_sign c h _ _ _ => some (c, .MBEDTLS_RSA_PKCS_V21, h)
  | .mbedtls_rsa_pkcs1_verify c h _ _ _ => some (c, .MBEDTLS_RSA_PKCS_V15, h)
  | .mbedtls_rsa_rsassa_pss_verify c h _ _ _ => some (c, .MBEDTLS_RSA_PKCS_V21, h)
  | _ => none

/-! ## Sampling after a failed verification -/

/-- Whether a verification call that returned a non-zero status has been seen. -/
def failed_verify_step (seen : Bool) (p : Event × Option Bool) : Bool :=
  seen || (p.1.is_verify && p.2 == some false)

/-! ## Checks on traces -/

/-- An event right after a `start()` sample is a verification call. -/
def start_then_verify (p : (Option Event × Option Event) × Event) : Bool :=
  match p.1.2 with
  | some (.start _) => p.2.is_verify
  | _ => true

/-- An `end()` sample comes right after a verification call that comes right
after a `start()` sample. -/
def end_after_verify (p : (Option Event × Option Event) × Event) : Bool :=
  match p.2, p.1 with
  | .end_ _, (some (.start _), some v) => v.is_verify
  | .end_ _, _ => false
  | _, _ => true

/-- The trace does not end with a `start()` sample. -/
def not_armed_at_end (l : List Event) : Bool :=
  match l.getLast? with
  | some (.start _) => false
  | _ => true

/-- The three checks of the clock discipline. -/
def clock_check (l : List Event) : Bool :=
  (recent l).all start_then_verify && (recent l).all end_after_verify && not_armed_at_end l

/-- A sign or verify call on `x` finds the mode it needs set on `x`. -/
def padding_ready (x : RsaRef) (p : Option (Padding × MdType) × Event) : Bool :=
  match p.2.scheme? with
  | some (c, pad, h) => c != x || p.1 == some (pad, h)
  | none => true

/-- Sign and verify calls operate on the context `rsa`. -/
def on_rsa (e : Event) : Bool :=
  match e.scheme? with
  | some (c, _, _) => c == .rsa
  | none => true

def padding_check (l : List Event) : Bool :=
  (scan (padding_step .rsa) none l).all (padding_ready .rsa) &&
  (scan (padding_step .rsa_pk) none l).all (padding_ready .rsa_pk) &&
  l.all on_rsa

/-- No context holds a key when the key handling of a key size begins. -/
def keys_freed_before (p : Keys × Event) : Bool :=
  !p.2.begins_key || (p.1.pk == none && p.1.rsa == none)

/-- A sign or verify call works on the key generated for the key size of the
iteration in progress. -/
def key_current (p : Keys × Event) : Bool :=
  !(p.2.is_sign || p.2.is_verify) || (p.1.rsa.isSome && p.1.rsa == p.1.size)

/-- The last event operating on `x` frees `x`. -/
def freed_last (x : Ctx) (l : List Event) : Bool :=
  match (uses x l).getLast? with
  | some e => e.releases x
  | none => false

def cleanup_check (l : List Event) : Bool :=
  freed_last .rsa l && freed_last .pk l && freed_last .ctr_drbg l && freed_last .entropy l &&
  (scan Keys.step Keys.init l).all keys_freed_before &&
  (scan Keys.step Keys.init l).all key_current &&
  (l.foldl Keys.step Keys.init).pk == none && (l.foldl Keys.step Keys.init).rsa == none

/-- Every context is freed exactly once after each acquisition: no free of a
context that is not held, and no context held at the end. -/
def released_exactly_once (o : List (Event × Option Bool)) : Prop :=
  ∀ x, repeated_frees x o = [] ∧ leaked x o = false

/-- The paths on which the exit block frees the RSA context a second time. -/
def rsa_freed_again : Option Call → Bool
  | none => true
  | some (.step 1 .pk_setup) => true
  | some (.step 1 .gen_key) => true
  | _ => false

/-- The paths on which the exit block frees the PK context a second time:
normal completion, and a failed `mbedtls_pk_setup` of the second key size,
which leaves `pk` as line 186 freed it. -/
def pk_freed_again : Option Call → Bool
  | none => true
  | some (.step 1 .pk_setup) => true
  | _ => false

/-- The checks of the release discipline on a trace `l` labelled as `o`, for
the first failure `k`. -/
def lifecycle_check (k : Option Call) (l : List Event) (o : List (Event × Option Bool)) : Bool :=
  !leaked .rsa o && !leaked .pk o && !leaked .ctr_drbg o && !leaked .entropy o &&
  (repeated_frees .ctr_drbg o).isEmpty && (repeated_frees .entropy o).isEmpty &&
  (l.filter fun e => e.releases .ctr_drbg).length == 1 &&
  (l.filter fun e => e.releases .entropy).length == 1 &&
  (repeated_frees .rsa o).length == (if rsa_freed_again k then 1 else 0) &&
  (repeated_frees .pk o).length == (if pk_freed_again k then 1 else 0)

/-- The events that write the digest buffer `hash`. -/
def Event.writes_hash : Event → Bool
  | .mbedtls_md _ _ _ .hash => true
  | .mbedtls_rsa_pkcs1_sign _ _ _ _ .hash => true
  | .mbedtls_rsa_rsassa_pss_sign _ _ _ _ .hash => true
  | _ => false

/-- The timing lines of a trace, each with the three events before it. -/
def timing_windows (l : List Event) : List ((Option Event × Option Event × Option Event) × Event) :=
  (recent3 l).filter fun p => p.2.timing?.isSome

/-- The four timed verifications of the all-success run: `start()` sample,
verification call, `end()` sample and timing line. -/
def full_windows (w : World) : List ((Option Event × Option Event × Option Event) × Event) :=
  [((some (.start (start w 0)),
     some (.mbedtls_rsa_pkcs1_verify .rsa .MBEDTLS_MD_SHA256 32 .hash .signature_pkcs1),
     some (.end_ (end_ w 1))),
    .printf (.cycles_pkcs1 2048 (cycles_arg (start w 0) (end_ w 1)))),
   ((some (.start (start w 2)),
     some (.mbedtls_rsa_rsassa_pss_verify .rsa .MBEDTLS_MD_SHA256 32 .hash .signature_pss),
     some (.end_ (end_ w 3))),
    .printf (.cycles_pss 2048 (cycles_arg (start w 2) (end_ w 3)))),
   ((some (.start (start w 4)),
     some (.mbedtls_rsa_pkcs1_verify .rsa .MBEDTLS_MD_SHA256 32 .hash .signature_pkcs1),
     some (.end_ (end_ w 5))),
    .printf (.cycles_pkcs1 3072 (cycles_arg (start w 4) (end_ w 5)))),
   ((some (.start (start w 6)),
     some (.mbedtls_rsa_rsassa_pss_verify .rsa .MBEDTLS_MD_SHA256 32 .hash .signature_pss),
     some (.end_ (end_ w 7))),
    .printf (.cycles_pss 3072 (cycles_arg (start w 6) (end_ w 7))))]

/-- The first timed verification of a run of `w_ok`. -/
def timed_2048_pkcs1 : (Option Event × Option Event × Option Event) × Event :=
  ((some (.start 0),
    some (.mbedtls_rsa_pkcs1_verify .rsa .MBEDTLS_MD_SHA256 32 .hash .signature_pkcs1),
    some (.end_ 100000)),
   .printf (.cycles_pkcs1 2048 625))

/-- The first timed verification of a run of `w_fast`. -/
def fast_2048_pkcs1 : (Option Event × Option Event × Option Event) × Event :=
  ((some (.start 0),
    some (.mbedtls_rsa_pkcs1_verify .rsa .MBEDTLS_MD_SHA256 32 .hash .signature_pkcs1),
    some (.end_ 100)),
   .printf (.cycles_pkcs1 2048 0))

/-- The number of verifications completed before the first failure. -/
def timed : Option Call → Nat
  | none => 4
  | some (.step 0 .verify_pss) => 1
  | some (.step (_ + 1) .verify_pss) => 3
  | some (.step (_ + 1) _) => 2
  | some _ => 0

/-- Every timing value reported by a verification whose counter advanced is
strictly positive. -/
def timing_positive (l : List Event) : Prop :=
  ∀ p ∈ recent3 l, ∀ st v en x, p.1 = (some (.start st), some v, some (.end_ en)) →
    p.2.timing? = some x → st < en → 0 < x

/-- Structural equality test on calls. -/
def Call.same : Call → Call → Bool
  | .seed, .seed => true
  | .hash, .hash => true
  | .step i s, .step j t => i == j && s == t
  | _, _ => false

/-- Whether call `c` of a run whose first failure is `k` returned 0: every
call made returned 0 except the failing one. -/
def outcome_of (k : Option Call) (c : Call) : Bool :=
  match k with
  | none => true
  | some k0 => !(c.same k0)

/-- The labelling `outcomes` computed from the first failure. -/
def outcomes_by (k : Option Call) (l : List Event) : List (Event × Option Bool) :=
  (sites 0 l).map fun p => (p.1, p.2.map (outcome_of k))

/-- A verification call that returned 0. -/
def verify_ok (p : Event × Option Bool) : Bool :=
  p.1.is_verify && p.2 == some true

/-- An `end()` sample comes right after a verification call that returned 0. -/
def end_after_ok
    (p : (Option (Event × Option Bool) × Option (Event × Option Bool)) × Event × Option Bool) :
    Bool :=
  match p.2.1, p.1.2 with
  | .end_ _, some (v, some true) => v.is_verify
  | .end_ _, _ => false
  | _, _ => true

/-- A timing line comes right after an `end()` sample that comes right after a
verification call that returned 0. -/
def timing_after_ok
    (p : (Option (Event × Option Bool) × Option (Event × Option Bool)) × Event × Option Bool) :
    Bool :=
  match p.2.1.timing?, p.1 with
  | some _, (some (v, some true), some (.end_ _, _)) => v.is_verify
  | some _, _ => false
  | none, _ => true

/-- The event right after a verification call that returned 0 is an `end()`
sample, and the event after that is a timing line. -/
def ok_then_sampled
    (p : (Option (Event × Option Bool) × Option (Event × Option Bool)) × Event × Option Bool) :
    Bool :=
  (match p.1.2 with
   | some q => !verify_ok q || p.2.1.is_end
   | none => true) &&
  (match p.1.1 with
   | some q => !verify_ok q || p.2.1.timing?.isSome
   | none => true)

/-- The events of the failure path: a `printf`, the frees of the exit block
and the decoding of the status. -/
def Event.is_exit_path : Event → Bool
  | .printf _ => true
  | .mbedtls_rsa_free _ => true
  | .mbedtls_pk_free => true
  | .mbedtls_ctr_drbg_free => true
  | .mbedtls_entropy_free => true
  | .mbedtls_strerror _ _ => true
  | _ => false

/-- Once a verification call has returned a non-zero status, only events of
the failure path follow, and no timing line is printed. -/
def quiet_after_failure (p : Bool × Event × Option Bool) : Bool :=
  !p.1 || (p.2.1.is_exit_path && p.2.1.timing?.isNone)

/-- The checks of the sampling discipline on a labelled trace. -/
def sampling_check (l : List Event) (o : List (Event × Option Bool)) : Bool :=
  (l.filter fun e => e.timing?.isSome).length == (o.filter verify_ok).length &&
  (l.filter Event.is_end).length == (o.filter verify_ok).length &&
  (recent o).all end_after_ok && (recent o).all timing_after_ok &&
  (recent o).all ok_then_sampled &&
  (scan failed_verify_step false o).all quiet_after_failure

/-! ## The shape of a run -/

theorem calls_eq :
    calls =
      [.seed, .hash,
       .step 0 .pk_setup, .step 0 .gen_key, .step 0 .sign_pkcs1, .step 0 .sign_pss,
       .step 0 .verify_pkcs1, .step 0 .verify_pss,
       .step 1 .pk_setup, .step 1 .gen_key, .step 1 .sign_pkcs1, .step 1 .sign_pss,
       .step 1 .verify_pkcs1, .step 1 .verify_pss] := by
  decide

theorem forall_calls (P : Call → Prop) (h1 : P .seed) (h2 : P .hash)
    (h3 : ∀ s, P (.step 0 s)) (h4 : ∀ s, P (.step 1 s)) : ∀ c ∈ calls, P c := by
  intro c hc
  rw [calls_eq] at hc
  simp only [List.mem_cons, List.mem_singleton, List.not_mem_nil, or_false] at hc
  rcases hc with rfl | rfl | rfl | rfl | rfl | rfl | rfl | rfl | rfl | rfl | rfl | rfl | rfl | rfl
  all_goals first | exact h1 | exact h2 | exact h3 _ | exact h4 _

theorem first_nonzero_mem (w : World) :
    ∀ cs c, first_nonzero w cs = some c → c ∈ cs ∧ w.status c ≠ 0 := by
  intro cs
  induction cs with
  | nil => intro c h; simp [first_nonzero] at h
  | cons a as ih =>
    intro c h
    simp only [first_nonzero] at h
    split_ifs at h with ha
    · simp only [Option.some.injEq] at h
      subst h
      exact ⟨List.mem_cons_self _ _, ha⟩
    · exact ⟨List.mem_cons_of_mem _ (ih c h).1, (ih c h).2⟩

theorem first_nonzero_none (w : World) :
    ∀ cs, first_nonzero w cs = none ↔ ∀ c ∈ cs, w.status c = 0 := by
  intro cs
  induction cs with
  | nil => simp [first_nonzero]
  | cons a as ih =>
    simp only [first_nonzero, List.forall_mem_cons]
    split_ifs with ha
    · simp [ha]
    · rw [ih]
      simp only [ne_eq, not_not] at ha
      simp [ha]

theorem first_nonzero_before (w : World) :
    ∀ cs k, first_nonzero w cs = some k →
      ∀ c ∈ cs.takeWhile (fun c => c != k), w.status c = 0 := by
  intro cs
  induction cs with
  | nil => intro k _ c hc; simp at hc
  | cons a as ih =>
    intro k h c hc
    simp only [first_nonzero] at h
    split_ifs at h with ha
    · simp only [Option.some.injEq] at h
      subst h
      simp [List.takeWhile] at hc
    · simp only [ne_eq, not_not] at ha
      rw [List.takeWhile_cons] at hc
      split at hc
      · rcases List.mem_cons.mp hc with rfl | hc
        · exact ha
        · exact ih k h c hc
      · simp at hc

theorem passed_ok (w : World) : ∀ c ∈ passed (first_failure w), w.status c = 0 := by
  cases hk : first_failure w with
  | none => exact (first_nonzero_none w calls).mp hk
  | some k => exact first_nonzero_before w calls k hk

theorem forall_run (w : World) (P : Option Call → Prop) (h0 : P none)
    (h : ∀ c ∈ calls, P (some c)) : P (first_failure w) := by
  cases hk : first_failure w with
  | none => exact h0
  | some c => exact h c (first_nonzero_mem w _ c hk).1

set_option maxHeartbeats 4000000 in
theorem app_main_eq (w : World) : app_main w = run w (first_failure w) := by
  simp only [app_main, loop, key_sizes]
  simp only [first_failure, calls_eq, first_nonzero]
  by_cases h1 : w.status .seed ≠ 0
  · simp only [exit, if_pos h1]; rfl
  simp only [if_neg h1]
  by_cases h2 : w.status .hash ≠ 0
  · simp only [exit, if_pos h2]; rfl
  simp only [if_neg h2]
  by_cases h3 : w.status (.step 0 .pk_setup) ≠ 0
  · simp only [exit, if_pos h3]; rfl
  simp only [if_neg h3]
  by_cases h4 : w.status (.step 0 .gen_key) ≠ 0
  · simp only [exit, if_pos h4]; rfl
  simp only [if_neg h4]
  by_cases h5 : w.status (.step 0 .sign_pkcs1) ≠ 0
  · simp only [exit, if_pos h5]; rfl
  simp only [if_neg h5]
  by_cases h6 : w.status (.step 0 .sign_pss) ≠ 0
  · simp only [exit, if_pos h6]; rfl
  simp only [if_neg h6]
  by_cases h7 : w.status (.step 0 .verify_pkcs1) ≠ 0
  · simp only [exit, if_pos h7]; rfl
  simp only [if_neg h7]
  by_cases h8 : w.status (.step 0 .verify_pss) ≠ 0
  · simp only [exit, if_pos h8]; rfl
  simp only [if_neg h8]
  by_cases h9 : w.status (.step 1 .pk_setup) ≠ 0
  · simp only [exit, if_pos h9]; rfl
  simp only [if_neg h9]
  by_cases h10 : w.status (.step 1 .gen_key) ≠ 0
  · simp only [exit, if_pos h10]; rfl
  simp only [if_neg h10]
  by_cases h11 : w.status (.step 1 .sign_pkcs1) ≠ 0
  · simp only [exit, if_pos h11]; rfl
  simp only [if_neg h11]
  by_cases h12 : w.status (.step 1 .sign_pss) ≠ 0
  · simp only [exit, if_pos h12]; rfl
  simp only [if_neg h12]
  by_cases h13 : w.status (.step 1 .verify_pkcs1) ≠ 0
  · simp only [exit, if_pos h13]; rfl
  simp only [if_neg h13]
  by_cases h14 : w.status (.step 1 .verify_pss) ≠ 0
  · simp only [exit, if_pos h14]; rfl
  simp only [if_neg h14]
  simp only [exit, if_neg h14]
  rfl

set_option smartUnfolding false in
theorem take_cut_index (w : World) :
    ∀ c ∈ calls,
      (app_main w.all_ok).take (cut_index c) = through_call c (sites 0 (app_main w.all_ok)) :=
  forall_calls _ rfl rfl (fun s => by cases s <;> rfl) (fun s => by cases s <;> rfl)

set_option smartUnfolding false in
theorem final_reports_run (w : World) :
    (run w (first_failure w)).filter Event.is_final_report =
      match first_failure w with
      | none => [.printf .completed]
      | some c => [.printf (.error (w.strerror (w.status c)) (neg_hex (w.status c)))] :=
  forall_run w
    (fun k => (run w k).filter Event.is_final_report =
      match k with
      | none => [.printf .completed]
      | some c => [.printf (.error (w.strerror (w.status c)) (neg_hex (w.status c)))])
    rfl
    (forall_calls _ rfl rfl (fun s => by cases s <;> rfl) (fun s => by cases s <;> rfl))

set_option smartUnfolding false in
theorem verdict_run (w : World) :
    (run w (first_failure w)).filter Event.is_verdict =
      match first_failure w with
      | none => [.printf .completed]
      | some c =>
        [.mbedtls_strerror (w.status c) 100,
         .printf (.error (w.strerror (w.status c)) (neg_hex (w.status c)))] :=
  forall_run w
    (fun k => (run w k).filter Event.is_verdict =
      match k with
      | none => [.printf .completed]
      | some c =>
        [.mbedtls_strerror (w.status c) 100,
         .printf (.error (w.strerror (w.status c)) (neg_hex (w.status c)))])
    rfl
    (forall_calls _ rfl rfl (fun s => by cases s <;> rfl) (fun s => by cases s <;> rfl))

set_option smartUnfolding false in
theorem clock_check_run (w : World) : clock_check (run w (first_failure w)) = true :=
  forall_run w (fun k => clock_check (run w k) = true) rfl
    (forall_calls _ rfl rfl (fun s => by cases s <;> rfl) (fun s => by cases s <;> rfl))

set_option smartUnfolding false in
theorem padding_check_run (w : World) : padding_check (run w (first_failure w)) = true :=
  forall_run w (fun k => padding_check (run w k) = true) rfl
    (forall_calls _ rfl rfl (fun s => by cases s <;> rfl) (fun s => by cases s <;> rfl))

set_option smartUnfolding false in
theorem cleanup_check_run (w : World) : cleanup_check (run w (first_failure w)) = true :=
  forall_run w (fun k => cleanup_check (run w k) = true) rfl
    (forall_calls _ rfl rfl (fun s => by cases s <;> rfl) (fun s => by cases s <;> rfl))

theorem cleanup_reached (w : World) :
    ∃ pre post, run w (first_failure w) = pre ++ cleanup ++ post ∧ ∀ e ∈ post, e.contexts = [] :=
  forall_run w
    (fun k => ∃ pre post, run w k = pre ++ cleanup ++ post ∧ ∀ e ∈ post, e.contexts = [])
    ⟨(app_main w.all_ok).take 68, [], rfl, by simp⟩
    (fun c _ =>
      ⟨(app_main w.all_ok).take (cut_index c) ++ [.printf (failure_line c (w.status c))],
       [.mbedtls_strerror (w.status c) 100,
        .printf (.error (w.strerror (w.status c)) (neg_hex (w.status c)))],
       by simp [run, exit_failed, cleanup], by simp [Event.contexts]⟩)

set_option smartUnfolding false in
theorem timing_windows_run (w : World) :
    timing_windows (run w (first_failure w)) = (full_windows w).take (timed (first_failure w)) :=
  forall_run w (fun k => timing_windows (run w k) = (full_windows w).take (timed k)) rfl
    (forall_calls _ rfl rfl (fun s => by cases s <;> rfl) (fun s => by cases s <;> rfl))

theorem start_lt (w : World) (n : Nat) : start w n < UINT32 :=
  Nat.mod_lt _ (by decide)

theorem end_lt (w : World) (n : Nat) : end_ w n < UINT32 :=
  Nat.mod_lt _ (by decide)

theorem cycles_arg_spec (st en : Nat) (hs : st < UINT32) (he : en < UINT32) :
    ((cycles_arg st en : Nat) : Int) = ((en : Int) - (st : Int)) % 4294967296 / 160 ∧
    (st ≤ en → cycles_arg st en = (en - st) / 160) ∧
    (st ≤ en → (0 < cycles_arg st en ↔ st + 160 ≤ en)) := by
  unfold cycles_arg
  unfold UINT32 at *
  refine ⟨?_, ?_, ?_⟩
  · omega
  · intro h
    have : (en + 4294967296 - st) % 4294967296 = en - st := by omega
    rw [this]
  · intro h
    have : (en + 4294967296 - st) % 4294967296 = en - st := by omega
    rw [this]
    omega

theorem timing_window_cases (w : World) (p : (Option Event × Option Event × Option Event) × Event)
    (hp : p ∈ recent3 (app_main w)) (x : Nat) (hx : p.2.timing? = some x) :
    ∃ n v, p.1 = (some (.start (start w n)), some v, some (.end_ (end_ w (n + 1)))) ∧
      v.is_verify = true ∧ x = cycles_arg (start w n) (end_ w (n + 1)) := by
  have hw : p ∈ timing_windows (app_main w) := by
    simp only [timing_windows, List.mem_filter, hp, hx, Option.isSome_some, and_self]
  rw [app_main_eq w, timing_windows_run w] at hw
  have hf := List.mem_of_mem_take hw
  simp only [full_windows, List.mem_cons, List.mem_singleton, List.not_mem_nil, or_false] at hf
  rcases hf with rfl | rfl | rfl | rfl
  all_goals
    simp only [Event.timing?, Option.some.injEq] at hx
    exact ⟨_, _, rfl, rfl, hx.symm⟩

theorem exit_path_not_sample (e : Event) (h : e.is_exit_path = true) :
    e.is_end = false ∧ e.is_start = false := by
  cases e <;> simp [Event.is_exit_path] at h <;> exact ⟨rfl, rfl⟩

theorem Call.same_iff (a b : Call) : a.same b = true ↔ a = b := by
  cases a <;> cases b <;> simp [Call.same]

set_option smartUnfolding false in
theorem labels_run (w : World) :
    (sites 0 (run w (first_failure w))).filterMap Prod.snd =
      passed (first_failure w) ++ (first_failure w).toList :=
  forall_run w (fun k => (sites 0 (run w k)).filterMap Prod.snd = passed k ++ k.toList) rfl
    (forall_calls _ rfl rfl (fun s => by cases s <;> rfl) (fun s => by cases s <;> rfl))

theorem status_on_run (w : World) (c : Call)
    (hc : c ∈ (sites 0 (run w (first_failure w))).filterMap Prod.snd) :
    decide (w.status c = 0) = outcome_of (first_failure w) c := by
  rw [labels_run] at hc
  have hp := passed_ok w
  cases hk : first_failure w with
  | none =>
    rw [hk] at hc hp
    simp only [Option.toList, List.append_nil] at hc
    simp [outcome_of, hp c hc]
  | some k0 =>
    rw [hk] at hc hp
    rcases List.mem_append.mp hc with h | h
    · have h' : c ∈ calls.takeWhile (fun c => c != k0) := h
      have hne := List.mem_takeWhile_imp h'
      have hne' : c.same k0 = false := by
        rw [Bool.eq_false_iff, Ne, Call.same_iff]
        simpa using hne
      simp [outcome_of, hp c h, hne']
    · simp only [Option.toList, List.mem_singleton] at h
      subst h
      have := (first_nonzero_mem w _ c hk).2
      have hs : c.same c = true := (Call.same_iff c c).mpr rfl
      simp [outcome_of, this, hs]

theorem outcomes_run (w : World) :
    outcomes w (run w (first_failure w)) = outcomes_by (first_failure w) (run w (first_failure w)) := by
  unfold outcomes outcomes_by
  apply List.map_congr_left
  rintro ⟨e, l⟩ hp
  cases l with
  | none => rfl
  | some c =>
    simp only [Option.map_some', Prod.mk.injEq, Option.some.injEq, true_and]
    exact status_on_run w c (List.mem_filterMap.mpr ⟨(e, some c), hp, rfl⟩)

set_option smartUnfolding false in
theorem lifecycle_check_run (w : World) :
    lifecycle_check (first_failure w) (run w (first_failure w))
      (outcomes_by (first_failure w) (run w (first_failure w))) = true :=
  forall_run w (fun k => lifecycle_check k (run w k) (outcomes_by k (run w k)) = true) rfl
    (forall_calls _ rfl rfl (fun s => by cases s <;> rfl) (fun s => by cases s <;> rfl))

theorem pk_freed_again_sub (k : Option Call) (h : rsa_freed_again k = false) :
    pk_freed_again k = false := by
  unfold pk_freed_again
  split <;> first | rfl | exact absurd h (by decide)

/-- A failed `mbedtls_pk_setup` at the second key size: line 186 has freed
`pk`, the setup acquires nothing, and line 194 frees `pk` again; `rsa`, freed
by line 185 and not initialised since, is freed again by line 193. -/
theorem pk_setup_failure_scenario :
    (repeated_frees .pk (outcomes w_pk_setup (app_main w_pk_setup))).length = 1 ∧
    (repeated_frees .rsa (outcomes w_pk_setup (app_main w_pk_setup))).length = 1 ∧
    (app_main w_pk_setup).drop 38 =
      [.printf (.testing 3072),
       .mbedtls_pk_setup .MBEDTLS_PK_RSA,
       .printf (.pk_setup_failed 16256),
       .mbedtls_rsa_free .rsa, .mbedtls_pk_free, .mbedtls_ctr_drbg_free, .mbedtls_entropy_free,
       .mbedtls_strerror (-16256) 100,
       .printf (.error "" 16256)] := by
  decide

set_option smartUnfolding false in
theorem sampling_check_run (w : World) :
    sampling_check (run w (first_failure w))
      (outcomes_by (first_failure w) (run w (first_failure w))) = true :=
  forall_run w (fun k => sampling_check (run w k) (outcomes_by k (run w k)) = true) rfl
    (forall_calls _ rfl rfl (fun s => by cases s <;> rfl) (fun s => by cases s <;> rfl))

/-- The failure scenario of the specification: key generation fails at the
second key size.  The 2048 iteration runs in full and reports both timings,
the 3072 iteration stops right after key generation, and the error line
follows the cleanup. -/
theorem keygen_failure_scenario :
    (app_main w_keygen).filter Event.is_benchmark =
      [.mbedtls_ctr_drbg_seed "rsa_time_comparison" 19,
       .mbedtls_md .MBEDTLS_MD_SHA256 "OPEN MESSAGE FOR ENCRYPTION" 27 .hash,
       .mbedtls_rsa_gen_key .rsa_pk 2048 65537,
       .mbedtls_rsa_pkcs1_sign .rsa .MBEDTLS_MD_SHA256 32 .hash .signature_pkcs1,
       .mbedtls_rsa_rsassa_pss_sign .rsa .MBEDTLS_MD_SHA256 32 .hash .signature_pss,
       .start 0,
       .mbedtls_rsa_pkcs1_verify .rsa .MBEDTLS_MD_SHA256 32 .hash .signature_pkcs1,
       .end_ 100000,
       .printf (.cycles_pkcs1 2048 625),
       .start 200000,
       .mbedtls_rsa_rsassa_pss_verify .rsa .MBEDTLS_MD_SHA256 32 .hash .signature_pss,
       .end_ 300000,
       .printf (.cycles_pss 2048 625),
       .mbedtls_rsa_gen_key .rsa_pk 3072 65537,
       .printf (.error "" 16768)] ∧
    (app_main w_keygen).drop 40 =
      [.mbedtls_rsa_gen_key .rsa_pk 3072 65537,
       .printf (.gen_key_failed 3072 16768),
       .mbedtls_rsa_free .rsa, .mbedtls_pk_free, .mbedtls_ctr_drbg_free, .mbedtls_entropy_free,
       .mbedtls_strerror (-16768) 100,
       .printf (.error "" 16768)] := by
  decide

/-! ## The claims -/

/-- C1 (abort on first failure).  The status-checked calls of the all-success
run are `calls`, in that order.  When no call of `calls` returns a non-zero
status the run is the all-success run.  Otherwise let `c` be the first call
returning a non-zero status: every call before it returned 0, and the run is
the all-success run cut right after call `c`, followed by the failure
diagnostic of `c`, the four cleanup frees, the decoding of the status of `c`
and the error line, and by nothing else.  So every key size before the
failing one runs all its steps and reports both timings, and no setup, key
generation, sign or verify call follows the failing call. -/
theorem C1_abort_on_first_failure (w : World) :
    (sites 0 (app_main w.all_ok)).filterMap Prod.snd = calls ∧
    match first_failure w with
    | none => app_main w = app_main w.all_ok
    | some c =>
      w.status c ≠ 0 ∧ (∀ c' ∈ calls.takeWhile (fun c' => c' != c), w.status c' = 0) ∧
      app_main w =
        through_call c (sites 0 (app_main w.all_ok)) ++
          [.printf (failure_line c (w.status c)),
           .mbedtls_rsa_free .rsa, .mbedtls_pk_free, .mbedtls_ctr_drbg_free,
           .mbedtls_entropy_free, .mbedtls_strerror (w.status c) 100,
           .printf (.error (w.strerror (w.status c)) (neg_hex (w.status c)))] := by
  refine ⟨rfl, ?_⟩
  have h := app_main_eq w
  cases hk : first_failure w with
  | none => rw [hk] at h; exact h
  | some c =>
    rw [hk] at h
    have hc := first_nonzero_mem w _ c hk
    refine ⟨hc.2, first_nonzero_before w calls c hk, ?_⟩
    rw [h, run, take_cut_index w c hc.1]
    rfl

/-- C6 (unambiguous final report).  The success banner is printed exactly when
every status-checked call returns 0; an error line is printed exactly when
some status-checked call returns a non-zero status; exactly one of the two is
printed; and when `c` is the first failing call, the status decoded by
`mbedtls_strerror` and printed in the error line is the status of `c`. -/
theorem C6_unambiguous_final_report (w : World) :
    (Event.printf .completed ∈ app_main w ↔ ∀ c ∈ calls, w.status c = 0) ∧
    ((∃ s x, Event.printf (.error s x) ∈ app_main w) ↔ ∃ c ∈ calls, w.status c ≠ 0) ∧
    ((app_main w).filter Event.is_final_report).length = 1 ∧
    match first_failure w with
    | none => (app_main w).filter Event.is_verdict = [.printf .completed]
    | some c =>
      (app_main w).filter Event.is_verdict =
        [.mbedtls_strerror (w.status c) 100,
         .printf (.error (w.strerror (w.status c)) (neg_hex (w.status c)))] := by
  have hf := final_reports_run w
  have hv := verdict_run w
  rw [← app_main_eq w] at hf hv
  have hmem : ∀ e, Event.is_final_report e = true →
      (e ∈ app_main w ↔ e ∈ (app_main w).filter Event.is_final_report) := by
    intro e he
    simp [List.mem_filter, he]
  cases hk : first_failure w with
  | none =>
    rw [hk] at hf hv
    have hall := (first_nonzero_none w calls).mp hk
    refine ⟨?_, ?_, ?_, hv⟩
    · rw [hmem (.printf .completed) rfl, hf]
      simp only [List.mem_singleton, true_iff]
      exact hall
    · constructor
      · rintro ⟨s, x, h⟩
        rw [hmem (.printf (.error s x)) rfl, hf] at h
        simp at h
      · rintro ⟨c, hc, hne⟩
        exact absurd (hall c hc) hne
    · rw [hf]
      rfl
  | some c =>
    rw [hk] at hf hv
    have hc := first_nonzero_mem w _ c hk
    refine ⟨?_, ?_, ?_, hv⟩
    · rw [hmem (.printf .completed) rfl, hf]
      constructor
      · intro h
        simp at h
      · intro hall
        exact absurd (hall c hc.1) hc.2
    · constructor
      · intro _
        exact ⟨c, hc.1, hc.2⟩
      · intro _
        refine ⟨w.strerror (w.status c), neg_hex (w.status c), ?_⟩
        rw [hmem (.printf (.error _ _)) rfl, hf]
        exact List.mem_singleton_self _
    · rw [hf]
      rfl

/-- C7 (clock only around verification).  In every run: the event right after
a `start()` sample is a verification call, and the run does not end on a
`start()` sample; every `end()` sample comes right after a verification call
which itself comes right after a `start()` sample.  So the counter is read
only in blocks `start(), verify, end()` (or `start(), verify` when the
verification fails), with nothing else inside a block. -/
theorem C7_clock_only_around_verification (w : World) :
    (∀ p ∈ recent (app_main w), ∀ v, p.1.2 = some (.start v) → p.2.is_verify = true) ∧
    (∀ v, (app_main w).getLast? ≠ some (.start v)) ∧
    (∀ p ∈ recent (app_main w), ∀ v, p.2 = .end_ v →
      ∃ st vf, p.1 = (some (.start st), some vf) ∧ vf.is_verify = true) := by
  have h := clock_check_run w
  rw [← app_main_eq w] at h
  simp only [clock_check, Bool.and_eq_true, List.all_eq_true] at h
  obtain ⟨⟨h1, h2⟩, h3⟩ := h
  refine ⟨?_, ?_, ?_⟩
  · intro p hp v hv
    have := h1 p hp
    simp only [start_then_verify, hv] at this
    exact this
  · intro v hv
    simp only [not_armed_at_end, hv] at h3
    exact absurd h3 (by decide)
  · intro p hp v hv
    have := h2 p hp
    obtain ⟨⟨a, b⟩, e⟩ := p
    simp only at hv
    subst hv
    cases a with
    | none => simp [end_after_verify] at this
    | some a =>
      cases b with
      | none => cases a <;> simp [end_after_verify] at this
      | some b =>
        cases a <;> simp [end_after_verify] at this
        exact ⟨_, _, rfl, this⟩

/-- C5 (set mode, then operate).  In every run, for each RSA context `x`: when
a sign or verify call on `x` is made, the latest operation on `x` before it is
a `mbedtls_rsa_set_padding` call on `x`, with the padding scheme of the
function called (PKCS_V15 for the PKCS#1 v1.5 sign and verify, PKCS_V21 for
the PSS sign and verify) and with SHA-256, the digest the call is given.  All
sign and verify calls are made on the context `rsa`. -/
theorem C5_set_mode_then_operate (w : World) :
    (∀ x, ∀ p ∈ scan (padding_step x) none (app_main w), ∀ pad h,
      p.2.scheme? = some (x, pad, h) → p.1 = some (pad, h) ∧ h = .MBEDTLS_MD_SHA256) ∧
    (∀ e ∈ app_main w, ∀ c pad h, e.scheme? = some (c, pad, h) → c = .rsa) := by
  have h := padding_check_run w
  rw [← app_main_eq w] at h
  simp only [padding_check, Bool.and_eq_true, List.all_eq_true] at h
  obtain ⟨⟨h1, h2⟩, h3⟩ := h
  refine ⟨?_, ?_⟩
  · intro x p hp pad hh hs
    have : padding_ready x p = true := by
      cases x
      · exact h1 p hp
      · exact h2 p hp
    simp only [padding_ready, hs, bne_self_eq_false, Bool.false_or, beq_iff_eq] at this
    refine ⟨this, ?_⟩
    cases hh
    rfl
  · intro e he c pad hh hs
    have := h3 e he
    simp only [on_rsa, hs, beq_iff_eq] at this
    exact this

/-- C3 (unconditional cleanup, no leak).  Every run contains the cleanup block
`rsa_free, pk_free, ctr_drbg_free, entropy_free`, after which no event
operates on a context; for each of the four contexts the last event operating
on it is its free.  No context holds a key when `mbedtls_pk_setup` or
`mbedtls_rsa_gen_key` of a key size begins, nor when the run ends; and every
sign or verify call works on a key whose bit length is the key size of the
iteration in progress: the one generated in that iteration. -/
theorem C3_unconditional_cleanup (w : World) :
    (∃ pre post, app_main w = pre ++ cleanup ++ post ∧ ∀ e ∈ post, e.contexts = []) ∧
    (∀ x, ∃ e, (uses x (app_main w)).getLast? = some e ∧ e.releases x = true) ∧
    (∀ p ∈ scan Keys.step Keys.init (app_main w), p.2.begins_key = true →
      p.1.pk = none ∧ p.1.rsa = none) ∧
    ((app_main w).foldl Keys.step Keys.init).pk = none ∧
    ((app_main w).foldl Keys.step Keys.init).rsa = none ∧
    (∀ p ∈ scan Keys.step Keys.init (app_main w), p.2.is_sign = true ∨ p.2.is_verify = true →
      ∃ k, p.1.size = some k ∧ p.1.rsa = some k) := by
  have h := cleanup_check_run w
  have hc := cleanup_reached w
  rw [← app_main_eq w] at h hc
  simp only [cleanup_check, Bool.and_eq_true, List.all_eq_true, beq_iff_eq] at h
  obtain ⟨⟨⟨⟨⟨⟨⟨f1, f2⟩, f3⟩, f4⟩, h1⟩, h2⟩, h3⟩, h4⟩ := h
  refine ⟨hc, ?_, ?_, h3, h4, ?_⟩
  · have key : ∀ x, freed_last x (app_main w) = true := by
      intro x
      cases x
      · exact f1
      · exact f2
      · exact f3
      · exact f4
    intro x
    have := key x
    unfold freed_last at this
    cases hl : (uses x (app_main w)).getLast? with
    | none => simp [hl] at this
    | some e =>
      simp only [hl] at this
      exact ⟨e, rfl, this⟩
  · intro p hp hb
    have := h1 p hp
    simp only [keys_freed_before, hb, Bool.not_true, Bool.false_or, Bool.and_eq_true,
      beq_iff_eq] at this
    exact this
  · intro p hp hb
    have := h2 p hp
    have hb' : (p.2.is_sign || p.2.is_verify) = true := by
      rcases hb with hb | hb <;> simp [hb]
    simp only [key_current, hb', Bool.not_true, Bool.false_or, Bool.and_eq_true,
      beq_iff_eq] at this
    obtain ⟨k, hk⟩ := Option.isSome_iff_exists.mp this.1
    exact ⟨k, by rw [← this.2, hk], hk⟩

/-- C2, as stated, fails on the normal completion path: in the run where all
calls succeed, the exit block frees the RSA context that the last iteration
already freed, with no init in between. -/
theorem C2_counterexample : ¬ released_exactly_once (outcomes w_ok (app_main w_ok)) := by
  intro h
  exact absurd (h .rsa).1 (by decide)

/-- C2 (amended).  Label every status-checked call of a run with whether it
returned 0; a context is acquired by its `init` call and, for `pk`, by a
`mbedtls_pk_setup` call that returned 0.  On every exit path no context is
left unreleased, and the CTR-DRBG and entropy contexts are freed exactly once.
The exit block frees the RSA and PK contexts whatever their state: the RSA
context is freed once more with no init in between exactly when the run
completes normally or `mbedtls_pk_setup` / `mbedtls_rsa_gen_key` of the second
key size fails, and the PK context is freed once more with no successful setup
in between exactly when the run completes normally or `mbedtls_pk_setup` of
the second key size fails; there is never more than one such repeated free per
context.  On every other path each context is released exactly once. -/
theorem C2_released_no_leak (w : World) :
    (∀ x, leaked x (outcomes w (app_main w)) = false) ∧
    repeated_frees .ctr_drbg (outcomes w (app_main w)) = [] ∧
    repeated_frees .entropy (outcomes w (app_main w)) = [] ∧
    ((app_main w).filter fun e => e.releases .ctr_drbg).length = 1 ∧
    ((app_main w).filter fun e => e.releases .entropy).length = 1 ∧
    (repeated_frees .rsa (outcomes w (app_main w))).length =
      (if rsa_freed_again (first_failure w) then 1 else 0) ∧
    (repeated_frees .pk (outcomes w (app_main w))).length =
      (if pk_freed_again (first_failure w) then 1 else 0) ∧
    (rsa_freed_again (first_failure w) = false →
      released_exactly_once (outcomes w (app_main w))) := by
  have h := lifecycle_check_run w
  rw [← outcomes_run w, ← app_main_eq w] at h
  simp only [lifecycle_check, Bool.and_eq_true, Bool.not_eq_true', beq_iff_eq,
    List.isEmpty_iff] at h
  obtain ⟨⟨⟨⟨⟨⟨⟨⟨⟨l1, l2⟩, l3⟩, l4⟩, r3⟩, r4⟩, c3⟩, c4⟩, r1⟩, r2⟩ := h
  have hl : ∀ x, leaked x (outcomes w (app_main w)) = false := by
    intro x
    cases x
    · exact l1
    · exact l2
    · exact l3
    · exact l4
  refine ⟨hl, r3, r4, c3, c4, r1, r2, ?_⟩
  intro hk x
  refine ⟨?_, hl x⟩
  have hk' := pk_freed_again_sub _ hk
  simp only [hk, hk', Bool.false_eq_true, if_false] at r1 r2
  cases x
  · exact List.length_eq_zero.mp r1
  · exact List.length_eq_zero.mp r2
  · exact r3
  · exact r4

/-- C4 (end-to-end success trace).  When every status-checked call returns 0,
the benchmark events of the run are exactly: one seeding, one SHA-256 hash of
the 27-byte message into `hash`, then for 2048 and for 3072 one key generation
with that bit length and exponent 65537, one PKCS#1 v1.5 signature into
`signature_pkcs1`, one PSS signature into `signature_pss`, a timed PKCS#1 v1.5
verification of `signature_pkcs1` with its timing line, a timed PSS
verification of `signature_pss` with its timing line - all four taking the 32
bytes of `hash` - and finally the success banner, with no error line.  The
digest buffer is written once. -/
theorem C4_end_to_end_success (w : World) (h : ∀ c ∈ calls, w.status c = 0) :
    (app_main w).filter Event.is_benchmark =
      [.mbedtls_ctr_drbg_seed "rsa_time_comparison" 19,
       .mbedtls_md .MBEDTLS_MD_SHA256 "OPEN MESSAGE FOR ENCRYPTION" 27 .hash,
       .mbedtls_rsa_gen_key .rsa_pk 2048 65537,
       .mbedtls_rsa_pkcs1_sign .rsa .MBEDTLS_MD_SHA256 32 .hash .signature_pkcs1,
       .mbedtls_rsa_rsassa_pss_sign .rsa .MBEDTLS_MD_SHA256 32 .hash .signature_pss,
       .start (start w 0),
       .mbedtls_rsa_pkcs1_verify .rsa .MBEDTLS_MD_SHA256 32 .hash .signature_pkcs1,
       .end_ (end_ w 1),
       .printf (.cycles_pkcs1 2048 (cycles_arg (start w 0) (end_ w 1))),
       .start (start w 2),
       .mbedtls_rsa_rsassa_pss_verify .rsa .MBEDTLS_MD_SHA256 32 .hash .signature_pss,
       .end_ (end_ w 3),
       .printf (.cycles_pss 2048 (cycles_arg (start w 2) (end_ w 3))),
       .mbedtls_rsa_gen_key .rsa_pk 3072 65537,
       .mbedtls_rsa_pkcs1_sign .rsa .MBEDTLS_MD_SHA256 32 .hash .signature_pkcs1,
       .mbedtls_rsa_rsassa_pss_sign .rsa .MBEDTLS_MD_SHA256 32 .hash .signature_pss,
       .start (start w 4),
       .mbedtls_rsa_pkcs1_verify .rsa .MBEDTLS_MD_SHA256 32 .hash .signature_pkcs1,
       .end_ (end_ w 5),
       .printf (.cycles_pkcs1 3072 (cycles_arg (start w 4) (end_ w 5))),
       .start (start w 6),
       .mbedtls_rsa_rsassa_pss_verify .rsa .MBEDTLS_MD_SHA256 32 .hash .signature_pss,
       .end_ (end_ w 7),
       .printf (.cycles_pss 3072 (cycles_arg (start w 6) (end_ w 7))),
       .printf .completed] ∧
    ((app_main w).filter Event.writes_hash).length = 1 := by
  have hk : first_failure w = none := (first_nonzero_none w calls).mpr h
  have he := app_main_eq w
  rw [hk] at he
  rw [he]
  exact ⟨rfl, rfl⟩

/-- C4 at the world `w_ok`: all calls return 0, the counter advances by 100000
between reads. -/
theorem C4_end_to_end_success_witness :
    (∀ c ∈ calls, w_ok.status c = 0) ∧
    (app_main w_ok).filter Event.is_benchmark =
      [.mbedtls_ctr_drbg_seed "rsa_time_comparison" 19,
       .mbedtls_md .MBEDTLS_MD_SHA256 "OPEN MESSAGE FOR ENCRYPTION" 27 .hash,
       .mbedtls_rsa_gen_key .rsa_pk 2048 65537,
       .mbedtls_rsa_pkcs1_sign .rsa .MBEDTLS_MD_SHA256 32 .hash .signature_pkcs1,
       .mbedtls_rsa_rsassa_pss_sign .rsa .MBEDTLS_MD_SHA256 32 .hash .signature_pss,
       .start 0,
       .mbedtls_rsa_pkcs1_verify .rsa .MBEDTLS_MD_SHA256 32 .hash .signature_pkcs1,
       .end_ 100000,
       .printf (.cycles_pkcs1 2048 625),
       .start 200000,
       .mbedtls_rsa_rsassa_pss_verify .rsa .MBEDTLS_MD_SHA256 32 .hash .signature_pss,
       .end_ 300000,
       .printf (.cycles_pss 2048 625),
       .mbedtls_rsa_gen_key .rsa_pk 3072 65537,
       .mbedtls_rsa_pkcs1_sign .rsa .MBEDTLS_MD_SHA256 32 .hash .signature_pkcs1,
       .mbedtls_rsa_rsassa_pss_sign .rsa .MBEDTLS_MD_SHA256 32 .hash .signature_pss,
       .start 400000,
       .mbedtls_rsa_pkcs1_verify .rsa .MBEDTLS_MD_SHA256 32 .hash .signature_pkcs1,
       .end_ 500000,
       .printf (.cycles_pkcs1 3072 625),
       .start 600000,
       .mbedtls_rsa_rsassa_pss_verify .rsa .MBEDTLS_MD_SHA256 32 .hash .signature_pss,
       .end_ 700000,
       .printf (.cycles_pss 3072 625),
       .printf .completed] :=
  ⟨fun _ _ => rfl, (C4_end_to_end_success w_ok (fun _ _ => rfl)).1⟩

/-- C8 (reported timing value).  Every timing line of a run comes right after
a `start()` sample `st`, a verification call and an `end()` sample `en`; both
samples are 32-bit values, and the value printed is `((en - st) mod 2^32) / 160`
with floor division; when `en >= st` it is `(en - st) / 160`. -/
theorem C8_reported_timing_value (w : World) :
    ∀ p ∈ recent3 (app_main w), ∀ x, p.2.timing? = some x →
      ∃ st v en, p.1 = (some (.start st), some v, some (.end_ en)) ∧ v.is_verify = true ∧
        st < 4294967296 ∧ en < 4294967296 ∧
        (x : Int) = ((en : Int) - (st : Int)) % 4294967296 / 160 ∧
        (st ≤ en → x = (en - st) / 160) := by
  intro p hp x hx
  obtain ⟨n, v, h1, h2, h3⟩ := timing_window_cases w p hp x hx
  have hs := cycles_arg_spec _ _ (start_lt w n) (end_lt w (n + 1))
  exact ⟨_, v, _, h1, h2, start_lt w n, end_lt w (n + 1), h3 ▸ hs.1, h3 ▸ hs.2.1⟩

/-- C8 at the first timed verification of the world `w_ok`: samples 0 and
100000, printed value 625. -/
theorem C8_reported_timing_value_witness :
    timed_2048_pkcs1 ∈ recent3 (app_main w_ok) ∧
    ∃ st v en, timed_2048_pkcs1.1 = (some (.start st), some v, some (.end_ en)) ∧
      v.is_verify = true ∧ st < 4294967296 ∧ en < 4294967296 ∧
      ((625 : Nat) : Int) = ((en : Int) - (st : Int)) % 4294967296 / 160 ∧
      (st ≤ en → 625 = (en - st) / 160) :=
  ⟨by decide, C8_reported_timing_value w_ok timed_2048_pkcs1 (by decide) 625 rfl⟩

/-- C9, as stated, fails when the counter advances by less than 160: in the
world `w_fast` the first verification is bracketed by the samples 0 and 100
and the value reported is 0. -/
theorem C9_counterexample : ¬ timing_positive (app_main w_fast) := by
  intro h
  have := h fast_2048_pkcs1 (by decide) 0 _ 100 0 rfl rfl (by decide)
  exact absurd this (by decide)

/-- C9 (timing sanity, amended).  For every timing line of a run whose samples
did not wrap (`st <= en`), the reported value is strictly positive exactly
when the counter advanced by at least 160; the elapsed count `en - st` is
strictly positive whenever `st < en`. -/
theorem C9_timing_positive_from_160 (w : World) :
    ∀ p ∈ recent3 (app_main w), ∀ st v en x,
      p.1 = (some (.start st), some v, some (.end_ en)) → p.2.timing? = some x → st ≤ en →
        (0 < x ↔ st + 160 ≤ en) ∧ (st < en → 0 < en - st) := by
  intro p hp st v en x h1 hx hle
  obtain ⟨n, v', h1', _, h3⟩ := timing_window_cases w p hp x hx
  rw [h1] at h1'
  simp only [Prod.mk.injEq, Option.some.injEq, Event.start.injEq, Event.end_.injEq] at h1'
  obtain ⟨hs, _, he⟩ := h1'
  subst hs he h3
  exact ⟨(cycles_arg_spec _ _ (start_lt w n) (end_lt w (n + 1))).2.2 hle, fun h => by omega⟩

/-- C9 (amended) at the first timed verification of the world `w_ok`. -/
theorem C9_timing_positive_from_160_witness :
    timed_2048_pkcs1 ∈ recent3 (app_main w_ok) ∧ 0 ≤ 100000 ∧
    ((0 < 625 ↔ 0 + 160 ≤ 100000) ∧ (0 < 100000 → 0 < 100000 - 0)) :=
  ⟨by decide, by decide,
    C9_timing_positive_from_160 w_ok timed_2048_pkcs1 (by decide) 0 _ 100000 625 rfl rfl
      (by decide)⟩

/-- C10 (no timing sample for a failed verification).  Label every
status-checked call of a run with whether it returned 0.  The timing lines,
the `end()` samples and the verification calls that returned 0 are equally
many; an `end()` sample is taken only right after a verification call that
returned 0, and a timing line is printed only right after that sample; the
event right after a verification call that returned 0 is the `end()` sample
and the next one its timing line; and once a verification call has returned a
non-zero status only the failure diagnostic, the frees of the exit block, the
status decoding and the error line follow: no further counter sample and no
timing line. -/
theorem C10_no_sample_after_failed_verify (w : World) :
    ((app_main w).filter fun e => e.timing?.isSome).length =
      ((outcomes w (app_main w)).filter verify_ok).length ∧
    ((app_main w).filter Event.is_end).length =
      ((outcomes w (app_main w)).filter verify_ok).length ∧
    (∀ p ∈ recent (outcomes w (app_main w)), p.2.1.is_end = true →
      ∃ v, p.1.2 = some (v, some true) ∧ v.is_verify = true) ∧
    (∀ p ∈ recent (outcomes w (app_main w)), p.2.1.timing?.isSome = true →
      ∃ v en r, p.1 = (some (v, some true), some (.end_ en, r)) ∧ v.is_verify = true) ∧
    (∀ p ∈ recent (outcomes w (app_main w)), ∀ v, p.1.2 = some (v, some true) →
      v.is_verify = true → p.2.1.is_end = true) ∧
    (∀ p ∈ recent (outcomes w (app_main w)), ∀ v, p.1.1 = some (v, some true) →
      v.is_verify = true → p.2.1.timing?.isSome = true) ∧
    (∀ p ∈ scan failed_verify_step false (outcomes w (app_main w)), p.1 = true →
      p.2.1.is_exit_path = true ∧ p.2.1.is_end = false ∧ p.2.1.is_start = false ∧
        p.2.1.timing? = none) := by
  have h := sampling_check_run w
  rw [← outcomes_run w, ← app_main_eq w] at h
  simp only [sampling_check, Bool.and_eq_true, List.all_eq_true, beq_iff_eq] at h
  obtain ⟨⟨⟨⟨⟨h1, h2⟩, h3⟩, h4⟩, h5⟩, h6⟩ := h
  refine ⟨h1, h2, ?_, ?_, ?_, ?_, ?_⟩
  · intro p hp he
    have := h3 p hp
    obtain ⟨⟨a, b⟩, e, r⟩ := p
    simp only at he
    cases e <;> simp [Event.is_end] at he
    rcases b with _ | ⟨v, _ | _ | _⟩ <;> simp [end_after_ok] at this
    exact ⟨v, rfl, this⟩
  · intro p hp he
    have := h4 p hp
    obtain ⟨⟨a, b⟩, e, r⟩ := p
    simp only at he
    obtain ⟨x, hx⟩ := Option.isSome_iff_exists.mp he
    simp only [timing_after_ok, hx] at this
    rcases a with _ | ⟨v, _ | _ | _⟩ <;> rcases b with _ | ⟨e', r'⟩ <;>
      try (simp at this)
    cases e' <;> simp at this
    exact ⟨v, _, r', rfl, this⟩
  · intro p hp v hv hvf
    have := (h5 p hp)
    simp only [ok_then_sampled, Bool.and_eq_true, hv] at this
    simpa [verify_ok, hvf] using this.1
  · intro p hp v hv hvf
    have := (h5 p hp)
    simp only [ok_then_sampled, Bool.and_eq_true, hv] at this
    simpa [verify_ok, hvf] using this.2
  · intro p hp hs
    have := h6 p hp
    simp only [quiet_after_failure, hs, Bool.not_true, Bool.false_or, Bool.and_eq_true,
      Option.isNone_iff_eq_none] at this
    exact ⟨this.1, (exit_path_not_sample _ this.1).1, (exit_path_not_sample _ this.1).2, this.2⟩

end MbedtlsRsa
